import Mathlib

/-!
Verification of the EmComm-Tools first-boot wizard's download / destination-resolution
subsystem (et-firstboot.py) and the companion configuration applet (et-user.py).

The Python source is shallowly embedded: the filesystem is an association list from
paths to nodes, the Flask session is a record of the two keys the code reads
(drive_type, usb_path), and the external `curl` invocation is a record describing
the outcome the transfer would have (exit code, timeout, whether a truncated file
is left behind on failure, size written on success).  Each HTTP endpoint becomes a
function from its request payload, the session, the curl outcome and the filesystem
to the JSON outcome it returns, the resulting filesystem, and a flag recording
whether the external transfer tool was invoked.
-/

/-! ## Filesystem model -/

abbrev FPath := String

inductive Node
  | dir
  | file (size : Nat)
deriving DecidableEq, Repr

abbrev FS := List (FPath × Node)

def FS.lookup : FS → FPath → Option Node
  | [], _ => none
  | (q, n) :: rest, p => if q = p then some n else FS.lookup rest p

/-- Python Path.exists(): any node at the path. -/
def FS.existsAt (fs : FS) (p : FPath) : Bool :=
  (FS.lookup fs p).isSome

/-- Python Path.mkdir(parents=True, exist_ok=True): ensure a directory node at p. -/
def FS.mkdirs (fs : FS) (p : FPath) : FS :=
  if (FS.lookup fs p).isSome then fs else (p, Node.dir) :: fs

/-- Python Path.unlink(): drop every entry at path p. -/
def FS.eraseP (fs : FS) (p : FPath) : FS :=
  fs.filter (fun e => e.1 ≠ p)

/-- Write (or overwrite) a node at path p. -/
def FS.setNode (fs : FS) (p : FPath) (n : Node) : FS :=
  (p, n) :: FS.eraseP fs p

/-! ## Session and destination resolution -/

/-- The two session keys the download endpoints read. -/
structure Session where
  drive_type : Option String
  usb_path : Option String
deriving DecidableEq, Repr

/-- TILESET_DIR = Path.home() / ".local/share/emcomm-tools/mbtileserver/tilesets". -/
def TILESET_DIR (home : FPath) : FPath :=
  home ++ "/.local/share/emcomm-tools/mbtileserver/tilesets"

/-- PBF_MAP_DIR = Path.home() / "my-maps". -/
def PBF_MAP_DIR (home : FPath) : FPath :=
  home ++ "/my-maps"

/-- ZIM_DIR = Path.home() / "wikipedia". -/
def ZIM_DIR (home : FPath) : FPath :=
  home ++ "/wikipedia"

inductive DlCategory
  | tiles
  | osm
  | wiki
deriving DecidableEq, Repr

/-- The category-specific subdirectory appended to the USB mount root. -/
def categorySubdir : DlCategory → String
  | DlCategory.tiles => "tilesets"
  | DlCategory.osm => "my-maps"
  | DlCategory.wiki => "wikipedia"

/-- The local (home-relative) default directory per category. -/
def localCategoryDir (home : FPath) : DlCategory → FPath
  | DlCategory.tiles => TILESET_DIR home
  | DlCategory.osm => PBF_MAP_DIR home
  | DlCategory.wiki => ZIM_DIR home

/-- Destination resolution as inlined in each download endpoint:
if session.get('drive_type') == 'usb' then Path(session.get('usb_path', '')) / sub
else the local default directory.  The filesystem is threaded through untouched,
mirroring that the Python code only reads session state here. -/
def resolveDestDir (home : FPath) (cat : DlCategory) (sess : Session) (fs : FS) :
    FPath × FS :=
  if sess.drive_type = some "usb" then
    ((sess.usb_path.getD "") ++ "/" ++ categorySubdir cat, fs)
  else
    (localCategoryDir home cat, fs)

/-- get_download_path(): drive_type = session.get('drive_type', 'local');
if drive_type == 'usb' then Path(session.get('usb_path', '')) else Path.home(). -/
def get_download_path (home : FPath) (sess : Session) : FPath :=
  if sess.drive_type.getD "local" = "usb" then sess.usb_path.getD "" else home

/-! ## The external transfer tool (curl) -/

/-- Outcome the external curl invocation would have, were it run. -/
structure CurlRun where
  exitCode : Nat
  timedOut : Bool
  stderrOut : String
  leftoverOnFail : Bool
  leftoverSize : Nat
  sizeOnSuccess : Nat
deriving DecidableEq, Repr

/-- A failed or killed transfer may leave a truncated file at the output path. -/
def applyFail (curl : CurlRun) (fs : FS) (p : FPath) : FS :=
  if curl.leftoverOnFail then FS.setNode fs p (Node.file curl.leftoverSize) else fs

/-- Python: if dest_file.exists(): dest_file.unlink(). -/
def cleanupAt (fs : FS) (p : FPath) : FS :=
  if FS.existsAt fs p then FS.eraseP fs p else fs

/-- JSON payload returned by the download endpoints. -/
structure Outcome where
  success : Bool
  skipped : Bool
  error : Option String
  message : Option String
deriving DecidableEq, Repr

/-- Prefix test on character lists. -/
def listIsPrefix : List Char → List Char → Bool
  | [], _ => true
  | _ :: _, [] => false
  | p :: ps, c :: cs => p = c && listIsPrefix ps cs

def containsSubChars : List Char → List Char → Bool
  | [], pat => decide (pat = [])
  | c :: rest, pat => listIsPrefix pat (c :: rest) || containsSubChars rest pat

/-- Substring test, Python's `in` on strings. -/
def strContains (s needle : String) : Bool :=
  containsSubChars s.data needle.data

/-- Replace every non-overlapping occurrence of pat, scanning left to right
(Python str.replace for a nonempty pattern).  The fuel argument makes the
recursion structural; each step consumes at least one character, so the
wrapper's fuel of length + 1 never runs out. -/
def replaceFuel (pat repl : List Char) : Nat → List Char → List Char
  | _, [] => []
  | 0, s => s
  | fuel + 1, c :: rest =>
    if listIsPrefix pat (c :: rest) then
      repl ++ replaceFuel pat repl fuel ((c :: rest).drop pat.length)
    else
      c :: replaceFuel pat repl fuel rest

/-- Python str.replace (all call sites use a nonempty pattern). -/
def pyReplace (s pat repl : String) : String :=
  if pat.data = [] then s
  else String.mk (replaceFuel pat.data repl.data (s.data.length + 1) s.data)

/-- Python m.split(sep)[-1] for sep = the slash character. -/
def lastComponent (s : String) : String :=
  String.mk (s.data.foldl (fun acc c => if c = '/' then [] else acc ++ [c]) [])

/-- Error-code translation table shared by the tile and wiki endpoints. -/
def curlErrorMsgTile (code : Nat) : String :=
  if code = 6 then "No internet connection"
  else if code = 7 then "Server not responding"
  else if code = 22 then "File not found on server"
  else if code = 23 then "Disk full - free up space"
  else if code = 28 then "Connection timeout"
  else if code = 56 then "Network error - try again"
  else "Download failed (error " ++ toString code ++ ")"

/-- Error translation of the OSM endpoint, including its stderr inspection. -/
def curlErrorMsgOsm (code : Nat) (stderr : String) : String :=
  if strContains stderr "Failed to open" ∨ strContains stderr "No such file" then
    "Cannot create file - check drive permissions"
  else if code = 6 then "No internet connection - check your network"
  else if code = 7 then "Server not responding - try again later"
  else if code = 22 then "File not found on server"
  else if code = 23 then "Disk full or write error - free up space"
  else if code = 28 then "Download too slow - connection timeout"
  else if code = 35 then "SSL/TLS connection failed"
  else if code = 52 then "Server returned empty response"
  else if code = 56 then "Network error during download - try again"
  else "Download failed (error " ++ toString code ++ ")"

/-! ## Download endpoints -/

/-- TILE_FILES, the fixed tile file list. -/
def TILE_FILES : List String :=
  ["osm-us-zoom0to11-20251120.mbtiles",
   "osm-ca-zoom0to10-20251120.mbtiles",
   "osm-world-zoom0to7-20251121.mbtiles"]

/-- api_download_tile: validate the filename against TILE_FILES, resolve the
destination, create the directory, skip when the file exists, otherwise run curl
(no timeout argument is passed in the source, so no timeout branch exists) and
translate a nonzero exit code.  No cleanup of a truncated file happens on failure.
Returns (json outcome, filesystem, whether curl was invoked). -/
def api_download_tile (home : FPath) (req : Option String) (sess : Session)
    (curl : CurlRun) (fs : FS) : Outcome × FS × Bool :=
  match req with
  | none => (⟨false, false, some "Invalid file", none⟩, fs, false)
  | some filename =>
    if filename ∈ TILE_FILES then
      let dest_dir := (resolveDestDir home DlCategory.tiles sess fs).1
      let fs1 := FS.mkdirs fs dest_dir
      let dest_file := dest_dir ++ "/" ++ filename
      if FS.existsAt fs1 dest_file then
        (⟨true, true, none, some "File already exists"⟩, fs1, false)
      else if curl.exitCode = 0 then
        (⟨true, false, none, none⟩, FS.setNode fs1 dest_file (Node.file curl.sizeOnSuccess), true)
      else
        (⟨false, false, some (curlErrorMsgTile curl.exitCode), none⟩,
          applyFail curl fs1 dest_file, true)
    else
      (⟨false, false, some "Invalid file", none⟩, fs, false)

/-- api_download_osm: validate the region, require a usb_path when the session
chose removable storage, resolve and create the destination, skip when the file
exists, otherwise run curl under a 30-minute timeout; on timeout or nonzero exit
delete any truncated file; on success reject files under 1000 bytes. -/
def api_download_osm (home : FPath) (regionReq : Option String) (sess : Session)
    (curl : CurlRun) (fs : FS) : Outcome × FS × Bool :=
  if (regionReq.getD "") = "" then
    (⟨false, false, some "No region selected", none⟩, fs, false)
  else if sess.drive_type = some "usb" ∧ (sess.usb_path.getD "") = "" then
    (⟨false, false, some "USB path not set", none⟩, fs, false)
  else
    let region := regionReq.getD ""
    let dest_dir := (resolveDestDir home DlCategory.osm sess fs).1
    let fs1 := FS.mkdirs fs dest_dir
    let dest_file := dest_dir ++ "/" ++ region ++ "-latest.osm.pbf"
    if FS.existsAt fs1 dest_file then
      (⟨true, true, none, some "File already exists"⟩, fs1, false)
    else if curl.timedOut then
      (⟨false, false, some "Download timed out (30 min limit)", none⟩,
        cleanupAt (applyFail curl fs1 dest_file) dest_file, true)
    else if curl.exitCode ≠ 0 then
      (⟨false, false, some (curlErrorMsgOsm curl.exitCode curl.stderrOut), none⟩,
        cleanupAt (applyFail curl fs1 dest_file) dest_file, true)
    else
      let fs2 := FS.setNode fs1 dest_file (Node.file curl.sizeOnSuccess)
      if curl.sizeOnSuccess < 1000 then
        (⟨false, false, some "Download incomplete", none⟩, cleanupAt fs2 dest_file, true)
      else
        (⟨true, false, none, none⟩, fs2, true)

/-- api_download_wiki: validate the filename, resolve and create the destination,
skip when the file exists, otherwise run curl under a 30-minute timeout.  Neither
the timeout handler nor the nonzero-exit handler deletes a truncated file. -/
def api_download_wiki (home : FPath) (req : Option String) (sess : Session)
    (curl : CurlRun) (fs : FS) : Outcome × FS × Bool :=
  if (req.getD "") = "" then
    (⟨false, false, some "No file specified", none⟩, fs, false)
  else
    let filename := req.getD ""
    let dest_dir := (resolveDestDir home DlCategory.wiki sess fs).1
    let fs1 := FS.mkdirs fs dest_dir
    let dest_file := dest_dir ++ "/" ++ filename
    if FS.existsAt fs1 dest_file then
      (⟨true, true, none, some "File already exists"⟩, fs1, false)
    else if curl.timedOut then
      (⟨false, false, some "Download timed out (30 min limit)", none⟩,
        applyFail curl fs1 dest_file, true)
    else if curl.exitCode ≠ 0 then
      (⟨false, false, some (curlErrorMsgTile curl.exitCode), none⟩,
        applyFail curl fs1 dest_file, true)
    else
      (⟨true, false, none, none⟩, FS.setNode fs1 dest_file (Node.file curl.sizeOnSuccess), true)

/-! ## The write probe (check_path_writable) -/

/-- Possible outcomes of the two filesystem calls the probe makes. -/
structure ProbeEnv where
  touchOk : Bool
  unlinkOk : Bool
deriving DecidableEq, Repr

/-- check_path_writable: returns False for an empty path; otherwise touch a
sentinel file and unlink it, catching every exception.  The second component
records whether a sentinel file created by the probe is left behind: touch raising
creates nothing, but when touch succeeds and unlink raises the sentinel remains. -/
def check_path_writable (path : String) (env : ProbeEnv) : Bool × Bool :=
  if path = "" then (false, false)
  else if env.touchOk then
    if env.unlinkOk then (true, false) else (false, true)
  else (false, false)

/-! ## Remote catalog fetchers -/

/-- A selectable region entry: id (derived filename stem) and display name. -/
structure Region where
  id : String
  name : String
deriving DecidableEq, Repr

/-- Python str.title(): uppercase a letter that follows a non-letter, lowercase
the other letters (ASCII-adequate model using isAlpha). -/
def pyTitleChars : Bool → List Char → List Char
  | _, [] => []
  | prevAlpha, c :: rest =>
    if c.isAlpha then
      (if prevAlpha then c.toLower else c.toUpper) :: pyTitleChars true rest
    else
      c :: pyTitleChars false rest

def pyTitle (s : String) : String :=
  String.mk (pyTitleChars false s.data)

/-- Per-match derivation in api_osm_regions: keep only the final path component,
strip the -latest.osm.pbf suffix (Python replace removes every occurrence), and
title-case the dash-separated words for display. -/
def deriveRegion (m : String) : Region :=
  let filename := lastComponent m
  let name := pyReplace filename "-latest.osm.pbf" ""
  let display := pyTitle (pyReplace name "-" " ")
  ⟨name, display⟩

/-- Lexicographic order on character lists by code point, Python's string
comparison (structurally recursive so concrete instances evaluate). -/
def charListLe : List Char → List Char → Bool
  | [], _ => true
  | _ :: _, [] => false
  | a :: as, b :: bs => if a = b then charListLe as bs else decide (a < b)

theorem charListLe_total : ∀ as bs, charListLe as bs = true ∨ charListLe bs as = true
  | [], _ => Or.inl rfl
  | _ :: _, [] => Or.inr rfl
  | a :: as, b :: bs => by
    by_cases hab : a = b
    · subst hab
      simpa [charListLe] using charListLe_total as bs
    · rcases lt_or_gt_of_ne hab with h | h
      · exact Or.inl (by simp [charListLe, hab, h])
      · exact Or.inr (by simp [charListLe, Ne.symm hab, h])

theorem charListLe_trans :
    ∀ as bs cs, charListLe as bs = true → charListLe bs cs = true →
      charListLe as cs = true
  | [], _, _, _, _ => rfl
  | _ :: _, [], _, h1, _ => by simp [charListLe] at h1
  | _ :: _, _ :: _, [], _, h2 => by simp [charListLe] at h2
  | a :: as, b :: bs, c :: cs, h1, h2 => by
    by_cases hab : a = b <;> by_cases hbc : b = c
    · subst hab; subst hbc
      simp only [charListLe, if_pos rfl] at h1 h2 ⊢
      exact charListLe_trans as bs cs h1 h2
    · subst hab
      simpa [charListLe, hbc] using h2
    · subst hbc
      simpa [charListLe, hab] using h1
    · simp only [charListLe, if_neg hab, decide_eq_true_eq] at h1
      simp only [charListLe, if_neg hbc, decide_eq_true_eq] at h2
      have hac : a < c := lt_trans h1 h2
      simp [charListLe, ne_of_lt hac, hac]

/-- String order used for every sorted() in the fetchers. -/
def pyStrLe (a b : String) : Prop := charListLe a.data b.data = true

instance : DecidableRel pyStrLe := fun a b =>
  inferInstanceAs (Decidable (charListLe a.data b.data = true))

/-- Ordering used by Python sorted(regions, key=lambda x: x['name']). -/
def regionLe (a b : Region) : Prop := pyStrLe a.name b.name

instance : DecidableRel regionLe := fun a b =>
  inferInstanceAs (Decidable (pyStrLe a.name b.name))

instance : IsTotal Region regionLe :=
  ⟨fun a b => charListLe_total a.name.data b.name.data⟩

instance : IsTrans Region regionLe :=
  ⟨fun _ _ _ h1 h2 => charListLe_trans _ _ _ h1 h2⟩

/-- Deduplication by derived id, keeping the first occurrence (the seen set). -/
def dedupById : List Region → List String → List Region
  | [], _ => []
  | r :: rs, seen =>
    if r.id ∈ seen then dedupById rs seen else r :: dedupById rs (r.id :: seen)

/-- The region pipeline of api_osm_regions applied to the href matches of the
listing page: skip the whole-country file (any match containing base-latest),
derive id/display, sort by display name, dedupe by id. -/
def osmRegionList (base : String) (hrefs : List String) : List Region :=
  let regions :=
    (hrefs.filter (fun m => ¬ strContains m (base ++ "-latest"))).map deriveRegion
  dedupById (List.insertionSort regionLe regions) []

/-- JSON payload of api_osm_regions. -/
structure OsmResponse where
  regions : List Region
  error : Option String
deriving DecidableEq, Repr

/-- The country-to-base mapping at the top of api_osm_regions. -/
def osmBase (country : String) : String :=
  if country = "canada" then "canada" else "us"

/-- api_osm_regions: the fetch/regex stage either yields the href matches or
raises; any exception is caught and answered with an error string plus an empty
region list. -/
def api_osm_regions (country : String) (fetched : Except String (List String)) :
    OsmResponse :=
  match fetched with
  | Except.error e => ⟨[], some e⟩
  | Except.ok hrefs => ⟨osmRegionList (osmBase country) hrefs, none⟩

/-- A selectable Wikipedia archive entry. -/
structure WikiFile where
  name : String
  display : String
  size : String
  existsLocally : Bool
deriving DecidableEq, Repr

/-- Per-match processing in api_wiki_files: display is the name without .zim,
a bare numeric size gets a B suffix, existence is membership in the set of files
already present locally or on the USB volume. -/
def wikiEntry (existing : List String) (m : String × String) : WikiFile :=
  let filename := m.1
  let size0 := m.2
  let last := size0.data.getLastD ' '
  let size :=
    if size0 ≠ "" ∧ ¬ (last = 'K' ∨ last = 'M' ∨ last = 'G' ∨ last = 'T') then
      size0 ++ "B"
    else size0
  ⟨filename, pyReplace filename ".zim" "", size, decide (filename ∈ existing)⟩

def wikiFileLe (a b : WikiFile) : Prop := pyStrLe a.name b.name

instance : DecidableRel wikiFileLe := fun a b =>
  inferInstanceAs (Decidable (pyStrLe a.name b.name))

instance : IsTotal WikiFile wikiFileLe :=
  ⟨fun a b => charListLe_total a.name.data b.name.data⟩

instance : IsTrans WikiFile wikiFileLe :=
  ⟨fun _ _ _ h1 h2 => charListLe_trans _ _ _ h1 h2⟩

/-- JSON payload of api_wiki_files.  The handler never puts an error key in the
response, so the error field stays none on every path; failures are only printed
to the server console. -/
structure WikiResponse where
  en : List WikiFile
  fr : List WikiFile
  error : Option String
deriving DecidableEq, Repr

/-- api_wiki_files: the fetch/regex stage either yields (filename, size) matches
or raises; an exception leaves both language lists empty and is not reported in
the response.  On success entries are split by language (the code tests whether
wikipedia_en occurs in the filename) and each list is sorted by filename. -/
def api_wiki_files (existing : List String)
    (fetched : Except String (List (String × String))) : WikiResponse :=
  match fetched with
  | Except.error _ => ⟨[], [], none⟩
  | Except.ok pairs =>
    let entries := pairs.map (wikiEntry existing)
    let en := entries.filter (fun w => strContains w.name "wikipedia_en")
    let fr := entries.filter (fun w => ¬ strContains w.name "wikipedia_en")
    ⟨List.insertionSort wikiFileLe en, List.insertionSort wikiFileLe fr, none⟩

/-! ## Finalizer (create_symlinks) -/

/-- State of a local path the finalizer may touch. -/
inductive LocalEntry
  | absent
  | realDir (content : Nat)
  | realFile (content : Nat)
  | symlinkTo (target : String)
deriving DecidableEq, Repr

/-- The local category path together with the (fresh, timestamped) backup name. -/
structure CatLinkState where
  localEnt : LocalEntry
  backupEnt : Option LocalEntry
deriving DecidableEq, Repr

/-- One tilesets / my-maps block of create_symlinks: when the USB subdirectory
exists, rename a real (non-symlink) local path to the timestamped backup name,
unlink a local symlink, and symlink the local path to the USB subdirectory. -/
def linkCategoryDir (usbExists : Bool) (usbTarget : String) (st : CatLinkState) :
    CatLinkState × List String :=
  if usbExists then
    let st1 :=
      match st.localEnt with
      | LocalEntry.realDir c => CatLinkState.mk LocalEntry.absent (some (LocalEntry.realDir c))
      | LocalEntry.realFile c => CatLinkState.mk LocalEntry.absent (some (LocalEntry.realFile c))
      | e => CatLinkState.mk e st.backupEnt
    let movedMsgs :=
      match st.localEnt with
      | LocalEntry.realDir _ => ["Backed up"]
      | LocalEntry.realFile _ => ["Backed up"]
      | _ => []
    let st2 :=
      match st1.localEnt with
      | LocalEntry.symlinkTo _ => CatLinkState.mk LocalEntry.absent st1.backupEnt
      | _ => st1
    (CatLinkState.mk (LocalEntry.symlinkTo usbTarget) st2.backupEnt, movedMsgs ++ ["Linked"])
  else
    (st, [])

/-- Entries of the local wikipedia directory. -/
inductive WikiEntryNode
  | realFile (content : Nat)
  | goodLink (target : String)
  | brokenLink
deriving DecidableEq, Repr

abbrev WikiDir := List (String × WikiEntryNode)

def isBrokenW : WikiEntryNode → Bool
  | WikiEntryNode.brokenLink => true
  | _ => false

def isLinkW : WikiEntryNode → Bool
  | WikiEntryNode.goodLink _ => true
  | WikiEntryNode.brokenLink => true
  | _ => false

/-- Path.exists() follows symlinks: a broken symlink does not exist. -/
def wExists : WikiEntryNode → Bool
  | WikiEntryNode.realFile _ => true
  | WikiEntryNode.goodLink _ => true
  | WikiEntryNode.brokenLink => false

def dirLookup : WikiDir → String → Option WikiEntryNode
  | [], _ => none
  | (m, e) :: rest, n => if m = n then some e else dirLookup rest n

def dirErase (d : WikiDir) (n : String) : WikiDir :=
  d.filter (fun e => e.1 ≠ n)

/-- The cleanup loop of the wikipedia block: remove broken symlinks. -/
def cleanupBrokenLinks (d : WikiDir) : WikiDir :=
  d.filter (fun e => ¬ isBrokenW e.2)

/-- One iteration of the per-file linking loop: unlink an existing symlink of the
same name, then create the symlink unless the name still exists (a real local
file).  A present-but-nonexistent entry at the name would make symlink_to raise;
that state is unreachable after the broken-link cleanup, and is modelled as a
no-op. -/
def linkOneZim (usbWiki : String) (d : WikiDir) (z : String) : WikiDir :=
  let d1 :=
    match dirLookup d z with
    | some e => if isLinkW e then dirErase d z else d
    | none => d
  match dirLookup d1 z with
  | some e => if wExists e then d1 else d1
  | none => d1 ++ [(z, WikiEntryNode.goodLink (usbWiki ++ "/" ++ z))]

/-- The per-file linking loop over every .zim found on the USB volume. -/
def wikiLinkPhase (usbWiki : String) (zims : List String) (d : WikiDir) : WikiDir :=
  zims.foldl (linkOneZim usbWiki) d

/-- The wikipedia block of create_symlinks: cleanup then per-file linking. -/
def wikiFinalize (usbWiki : String) (zims : List String) (d : WikiDir) : WikiDir :=
  wikiLinkPhase usbWiki zims (cleanupBrokenLinks d)

/-! ## Configuration loaders -/

inductive JVal
  | str (s : String)
  | null
deriving DecidableEq, Repr

abbrev Dict := List (String × JVal)

def dictLookup : Dict → String → Option JVal
  | [], _ => none
  | (m, v) :: rest, k => if m = k then some v else dictLookup rest k

/-- On-disk state of the persisted user configuration. -/
inductive DiskState
  | missing
  | unreadable
  | parsed (d : Dict)
deriving DecidableEq, Repr

/-- The hard-coded fallback dict at the end of load_user_config (et-firstboot). -/
def firstbootDefaults : Dict :=
  [("callsign", JVal.str "N0CALL"), ("grid", JVal.str ""), ("winlinkPasswd", JVal.str "")]

/-- load_user_config (et-firstboot): a parseable file is returned as-is; the
defaults are substituted only when the file is missing or raises on load. -/
def load_user_config : DiskState → Dict
  | DiskState.parsed d => d
  | _ => firstbootDefaults

/-- DEFAULT_CONFIG of et-user. -/
def DEFAULT_CONFIG : Dict :=
  [("language", JVal.str "en"), ("callsign", JVal.str "N0CALL"),
   ("grid", JVal.str "AA00aa"), ("name", JVal.str ""), ("winlinkPasswd", JVal.null)]

/-- The merge loop of et-user load_config: each default key absent from the
loaded dict is inserted (Python dict insertion appends at the end). -/
def mergeDefaults (defaults cfg : Dict) : Dict :=
  defaults.foldl (fun c kv => if (dictLookup c kv.1).isSome then c else c ++ [kv]) cfg

/-- The grid_square compatibility branch of load_config. -/
def gridCompat (c : Dict) : Dict :=
  if (dictLookup c "grid_square").isSome ∧ (dictLookup c "grid").isNone then
    c ++ [("grid", (dictLookup c "grid_square").getD JVal.null)]
  else c

/-- load_config (et-user): parseable file merged with DEFAULT_CONFIG, then the
grid_square compatibility step; otherwise a copy of DEFAULT_CONFIG. -/
def load_config : DiskState → Dict
  | DiskState.parsed d => gridCompat (mergeDefaults DEFAULT_CONFIG d)
  | _ => DEFAULT_CONFIG

example :
    (api_download_tile "/home/u" (some "nope.mbtiles")
      ⟨some "local", none⟩ ⟨0, false, "", false, 0, 5000⟩ []).1.error = some "Invalid file" := by
  decide

example :
    (api_download_wiki "/home/u" (some "a.zim") ⟨some "local", none⟩
      ⟨56, false, "", true, 17, 0⟩
      [("/home/u/wikipedia", Node.dir)]).2.1.lookup "/home/u/wikipedia/a.zim"
      = some (Node.file 17) := by
  decide

example :
    osmRegionList "canada"
      ["/north-america/canada/quebec-latest.osm.pbf",
       "canada-latest.osm.pbf",
       "/north-america/canada/alberta-latest.osm.pbf",
       "/north-america/canada/quebec-latest.osm.pbf"]
      = [⟨"alberta", "Alberta"⟩, ⟨"quebec", "Quebec"⟩] := by
  decide

example :
    load_config (DiskState.parsed [("callsign", JVal.str "VA2XY")]) =
      [("callsign", JVal.str "VA2XY"), ("language", JVal.str "en"),
       ("grid", JVal.str "AA00aa"), ("name", JVal.str ""), ("winlinkPasswd", JVal.null)] := by
  decide

/-! ## Basic lemmas about the filesystem model -/

theorem FS.lookup_mkdirs_ne (fs : FS) (d p : FPath) (h : p ≠ d) :
    FS.lookup (FS.mkdirs fs d) p = FS.lookup fs p := by
  unfold FS.mkdirs
  split
  · rfl
  · simp only [FS.lookup]
    rw [if_neg (fun hdp => h hdp.symm)]

theorem append_slash_ne (d x : String) : d ++ "/" ++ x ≠ d := by
  intro h
  have hl := congrArg String.length h
  have h1 : ("/" : String).length = 1 := rfl
  simp only [String.length_append, h1] at hl
  omega

theorem append_slash_suffix_ne (d x y : String) : d ++ "/" ++ x ++ y ≠ d := by
  intro h
  have hl := congrArg String.length h
  have h1 : ("/" : String).length = 1 := rfl
  simp only [String.length_append, h1] at hl
  omega

/-- C10: for a tile request whose filename is missing or not one of the three
entries of TILE_FILES, the endpoint returns the Invalid file failure outcome,
leaves the filesystem exactly as it was (no directory created, nothing written
or deleted), and does not invoke the external transfer tool. -/
theorem api_download_tile_invalid_file (home : FPath) (req : Option String)
    (sess : Session) (curl : CurlRun) (fs : FS)
    (h : req = none ∨ ∃ f, req = some f ∧ f ∉ TILE_FILES) :
    api_download_tile home req sess curl fs =
      (⟨false, false, some "Invalid file", none⟩, fs, false) := by
  rcases h with h | ⟨f, hf, hmem⟩
  · subst h; rfl
  · subst hf
    simp [api_download_tile, hmem]

theorem api_download_tile_invalid_file_witness :
    api_download_tile "/home/user" (some "evil.mbtiles") ⟨some "local", none⟩
        ⟨0, false, "", false, 0, 5000⟩ [] =
      (⟨false, false, some "Invalid file", none⟩, [], false) :=
  api_download_tile_invalid_file "/home/user" (some "evil.mbtiles")
    ⟨some "local", none⟩ ⟨0, false, "", false, 0, 5000⟩ []
    (Or.inr ⟨"evil.mbtiles", rfl, by decide⟩)

/-- C4: destination resolution is a pure, deterministic function of the session:
it never modifies the filesystem, the path it returns does not depend on the
filesystem, and calling it again on its own output state returns the same path
and the same state. -/
theorem resolveDestDir_pure_deterministic (home : FPath) (cat : DlCategory)
    (sess : Session) (fs fs2 : FS) :
    (resolveDestDir home cat sess fs).2 = fs ∧
      (resolveDestDir home cat sess fs).1 = (resolveDestDir home cat sess fs2).1 ∧
      resolveDestDir home cat sess (resolveDestDir home cat sess fs).2 =
        resolveDestDir home cat sess fs := by
  unfold resolveDestDir
  split <;> simp

/-- C3 counterexample: when the sentinel touch succeeds but the unlink raises
(for instance a sticky-bit directory), check_path_writable returns false — an
I/O failure — yet the sentinel file is left behind in the probed directory,
contradicting the claim that no failure leaves a residual sentinel. -/
theorem check_path_writable_residual_sentinel_cex :
    check_path_writable "/media/user/USB1" ⟨true, false⟩ = (false, true) := by
  decide

/-- C3 amended: check_path_writable returns true exactly when the path is
nonempty and both the sentinel creation and its removal succeed; no exception
escapes (the function is total); and no residual sentinel is left whenever the
failure is in creating the sentinel (in particular for an unwritable or missing
path) or the path is empty.  Only the create-succeeded/remove-failed case can
leave the sentinel behind. -/
theorem check_path_writable_amended (path : String) (env : ProbeEnv) :
    ((check_path_writable path env).1 = true ↔
      path ≠ "" ∧ env.touchOk = true ∧ env.unlinkOk = true) ∧
    (env.touchOk = false → (check_path_writable path env).2 = false) ∧
    (path = "" → check_path_writable path env = (false, false)) := by
  unfold check_path_writable
  by_cases hp : path = "" <;> cases ht : env.touchOk <;> cases hu : env.unlinkOk <;>
    simp [hp, ht, hu]

theorem check_path_writable_amended_witness :
    (check_path_writable "/media/user/USB1" ⟨false, true⟩).2 = false :=
  (check_path_writable_amended "/media/user/USB1" ⟨false, true⟩).2.1 rfl

/-- C5 counterexample: when the remote listing fetch of the archive-file
fetcher fails, the response carries no error indicator at all — both language
lists are empty and the error field of the payload is absent (the exception is
only printed to the console), contradicting the claim that a fetch failure is
returned together with an error indicator by every fetcher. -/
theorem api_wiki_files_no_error_indicator_cex :
    api_wiki_files [] (Except.error "timed out") =
      ⟨[], [], none⟩ := by
  decide

/-- C5 amended: neither fetcher propagates a fetch fault: both return an empty
result set.  The region-extract fetcher additionally reports the failure in the
error field of its response; the archive-file fetcher does not — its response
carries no error indicator and the fault is only logged. -/
theorem catalog_fetchers_fail_soft (e country : String) (existing : List String) :
    api_osm_regions country (Except.error e) = ⟨[], some e⟩ ∧
      api_wiki_files existing (Except.error e) = ⟨[], [], none⟩ :=
  ⟨rfl, rfl⟩

/-- C2 (code bug): the wiki download endpoint deletes no truncated file on
transfer failure.  With a curl failure (exit 56) that leaves a truncated file,
the endpoint reports failure yet the destination still contains the expected
final name, and an identical follow-up request is then skipped as if the file
had been downloaded — exactly the corruption the spec's cleanup rule exists to
prevent.  (The OSM region endpoint does perform the cleanup; the tile and wiki
endpoints do not.) -/
theorem api_download_wiki_leaves_truncated_artifact :
    (api_download_wiki "/home/user" (some "wikipedia_en_all_2026-01.zim")
        ⟨some "local", none⟩ ⟨56, false, "", true, 17, 0⟩
        [("/home/user/wikipedia", Node.dir)]).1.success = false ∧
    FS.existsAt
        (api_download_wiki "/home/user" (some "wikipedia_en_all_2026-01.zim")
          ⟨some "local", none⟩ ⟨56, false, "", true, 17, 0⟩
          [("/home/user/wikipedia", Node.dir)]).2.1
        "/home/user/wikipedia/wikipedia_en_all_2026-01.zim" = true ∧
    (api_download_wiki "/home/user" (some "wikipedia_en_all_2026-01.zim")
        ⟨some "local", none⟩ ⟨56, false, "", true, 17, 0⟩
        (api_download_wiki "/home/user" (some "wikipedia_en_all_2026-01.zim")
          ⟨some "local", none⟩ ⟨56, false, "", true, 17, 0⟩
          [("/home/user/wikipedia", Node.dir)]).2.1).1.skipped = true := by
  decide

/-- C1: in each of the three download categories, a request whose expected final
filename already exists in the resolved destination directory is answered with a
success outcome marked skipped, the external transfer tool is not invoked, and
the existing file is left unchanged (the only filesystem effect is the mkdir of
the destination directory, a no-op when it already exists). -/
theorem api_download_skip_if_exists :
    (∀ (home : FPath) (sess : Session) (curl : CurlRun) (fs : FS) (f : String),
      f ∈ TILE_FILES →
      FS.existsAt fs ((resolveDestDir home DlCategory.tiles sess fs).1 ++ "/" ++ f) = true →
      api_download_tile home (some f) sess curl fs =
        (⟨true, true, none, some "File already exists"⟩,
          FS.mkdirs fs (resolveDestDir home DlCategory.tiles sess fs).1, false) ∧
      FS.lookup (FS.mkdirs fs (resolveDestDir home DlCategory.tiles sess fs).1)
          ((resolveDestDir home DlCategory.tiles sess fs).1 ++ "/" ++ f) =
        FS.lookup fs ((resolveDestDir home DlCategory.tiles sess fs).1 ++ "/" ++ f)) ∧
    (∀ (home : FPath) (sess : Session) (curl : CurlRun) (fs : FS) (r : String),
      r ≠ "" →
      ¬ (sess.drive_type = some "usb" ∧ sess.usb_path.getD "" = "") →
      FS.existsAt fs
          ((resolveDestDir home DlCategory.osm sess fs).1 ++ "/" ++ r ++ "-latest.osm.pbf")
        = true →
      api_download_osm home (some r) sess curl fs =
        (⟨true, true, none, some "File already exists"⟩,
          FS.mkdirs fs (resolveDestDir home DlCategory.osm sess fs).1, false) ∧
      FS.lookup (FS.mkdirs fs (resolveDestDir home DlCategory.osm sess fs).1)
          ((resolveDestDir home DlCategory.osm sess fs).1 ++ "/" ++ r ++ "-latest.osm.pbf") =
        FS.lookup fs
          ((resolveDestDir home DlCategory.osm sess fs).1 ++ "/" ++ r ++ "-latest.osm.pbf")) ∧
    (∀ (home : FPath) (sess : Session) (curl : CurlRun) (fs : FS) (f : String),
      f ≠ "" →
      FS.existsAt fs ((resolveDestDir home DlCategory.wiki sess fs).1 ++ "/" ++ f) = true →
      api_download_wiki home (some f) sess curl fs =
        (⟨true, true, none, some "File already exists"⟩,
          FS.mkdirs fs (resolveDestDir home DlCategory.wiki sess fs).1, false) ∧
      FS.lookup (FS.mkdirs fs (resolveDestDir home DlCategory.wiki sess fs).1)
          ((resolveDestDir home DlCategory.wiki sess fs).1 ++ "/" ++ f) =
        FS.lookup fs ((resolveDestDir home DlCategory.wiki sess fs).1 ++ "/" ++ f)) := by
  refine ⟨?_, ?_, ?_⟩
  · intro home sess curl fs f hmem hex
    have hne := append_slash_ne ((resolveDestDir home DlCategory.tiles sess fs).1) f
    have hlk := FS.lookup_mkdirs_ne fs ((resolveDestDir home DlCategory.tiles sess fs).1)
      ((resolveDestDir home DlCategory.tiles sess fs).1 ++ "/" ++ f) hne
    have hex1 : FS.existsAt
        (FS.mkdirs fs ((resolveDestDir home DlCategory.tiles sess fs).1))
        ((resolveDestDir home DlCategory.tiles sess fs).1 ++ "/" ++ f) = true := by
      unfold FS.existsAt
      rw [hlk]
      exact hex
    refine ⟨?_, hlk⟩
    simp only [api_download_tile, if_pos hmem, hex1, if_true]
  · intro home sess curl fs r hr hu hex
    have hne := append_slash_suffix_ne ((resolveDestDir home DlCategory.osm sess fs).1) r
      "-latest.osm.pbf"
    have hlk := FS.lookup_mkdirs_ne fs ((resolveDestDir home DlCategory.osm sess fs).1)
      ((resolveDestDir home DlCategory.osm sess fs).1 ++ "/" ++ r ++ "-latest.osm.pbf") hne
    have hex1 : FS.existsAt
        (FS.mkdirs fs ((resolveDestDir home DlCategory.osm sess fs).1))
        ((resolveDestDir home DlCategory.osm sess fs).1 ++ "/" ++ r ++ "-latest.osm.pbf")
        = true := by
      unfold FS.existsAt
      rw [hlk]
      exact hex
    refine ⟨?_, hlk⟩
    simp only [api_download_osm, Option.getD_some, if_neg hr, if_neg hu, hex1, if_true]
  · intro home sess curl fs f hf hex
    have hne := append_slash_ne ((resolveDestDir home DlCategory.wiki sess fs).1) f
    have hlk := FS.lookup_mkdirs_ne fs ((resolveDestDir home DlCategory.wiki sess fs).1)
      ((resolveDestDir home DlCategory.wiki sess fs).1 ++ "/" ++ f) hne
    have hex1 : FS.existsAt
        (FS.mkdirs fs ((resolveDestDir home DlCategory.wiki sess fs).1))
        ((resolveDestDir home DlCategory.wiki sess fs).1 ++ "/" ++ f) = true := by
      unfold FS.existsAt
      rw [hlk]
      exact hex
    refine ⟨?_, hlk⟩
    simp only [api_download_wiki, Option.getD_some, if_neg hf, hex1, if_true]

theorem api_download_skip_if_exists_witness :
    (api_download_tile "/home/user" (some "osm-us-zoom0to11-20251120.mbtiles")
        ⟨some "usb", some "/media/user/USB1"⟩ ⟨0, false, "", false, 0, 5000⟩
        [("/media/user/USB1/tilesets/osm-us-zoom0to11-20251120.mbtiles",
          Node.file 9)]).1.skipped = true ∧
    (api_download_osm "/home/user" (some "quebec")
        ⟨some "usb", some "/media/user/USB1"⟩ ⟨0, false, "", false, 0, 5000⟩
        [("/media/user/USB1/my-maps/quebec-latest.osm.pbf", Node.file 9)]).1.skipped = true ∧
    (api_download_wiki "/home/user" (some "wikipedia_fr_b.zim")
        ⟨some "usb", some "/media/user/USB1"⟩ ⟨0, false, "", false, 0, 5000⟩
        [("/media/user/USB1/wikipedia/wikipedia_fr_b.zim", Node.file 9)]).1.skipped
      = true := by
  refine ⟨?_, ?_, ?_⟩
  · rw [(api_download_skip_if_exists.1 "/home/user"
      ⟨some "usb", some "/media/user/USB1"⟩ ⟨0, false, "", false, 0, 5000⟩
      [("/media/user/USB1/tilesets/osm-us-zoom0to11-20251120.mbtiles", Node.file 9)]
      "osm-us-zoom0to11-20251120.mbtiles" (by decide) (by decide)).1]
  · rw [(api_download_skip_if_exists.2.1 "/home/user"
      ⟨some "usb", some "/media/user/USB1"⟩ ⟨0, false, "", false, 0, 5000⟩
      [("/media/user/USB1/my-maps/quebec-latest.osm.pbf", Node.file 9)]
      "quebec" (by decide) (by decide) (by decide)).1]
  · rw [(api_download_skip_if_exists.2.2 "/home/user"
      ⟨some "usb", some "/media/user/USB1"⟩ ⟨0, false, "", false, 0, 5000⟩
      [("/media/user/USB1/wikipedia/wikipedia_fr_b.zim", Node.file 9)]
      "wikipedia_fr_b.zim" (by decide) (by decide)).1]

/-- C7: when the finalizer links a tilesets or my-maps subdirectory from the
removable volume, a local path that exists as a real directory (not a symlink)
is renamed to the timestamped backup name before the replacement symlink is
created; a real local directory is never deleted — its content survives either
in place (when the USB subdirectory is absent) or under the backup name. -/
theorem create_symlinks_backs_up_real_dir (usbTarget : String) (st : CatLinkState)
    (c : Nat) (h : st.localEnt = LocalEntry.realDir c) :
    (linkCategoryDir true usbTarget st).1.backupEnt = some (LocalEntry.realDir c) ∧
    (linkCategoryDir true usbTarget st).1.localEnt = LocalEntry.symlinkTo usbTarget ∧
    ∀ usbExists,
      (linkCategoryDir usbExists usbTarget st).1.backupEnt = some (LocalEntry.realDir c) ∨
      (linkCategoryDir usbExists usbTarget st).1.localEnt = LocalEntry.realDir c := by
  refine ⟨?_, ?_, ?_⟩
  · simp [linkCategoryDir, h]
  · simp [linkCategoryDir, h]
  · intro usbExists
    cases usbExists
    · right
      simp [linkCategoryDir, h]
    · left
      simp [linkCategoryDir, h]

theorem create_symlinks_backs_up_real_dir_witness :
    (linkCategoryDir true "/media/user/USB1/tilesets"
        ⟨LocalEntry.realDir 7, none⟩).1.backupEnt = some (LocalEntry.realDir 7) ∧
    (linkCategoryDir true "/media/user/USB1/tilesets"
        ⟨LocalEntry.realDir 7, none⟩).1.localEnt =
      LocalEntry.symlinkTo "/media/user/USB1/tilesets" :=
  ⟨(create_symlinks_backs_up_real_dir "/media/user/USB1/tilesets"
      ⟨LocalEntry.realDir 7, none⟩ 7 rfl).1,
   (create_symlinks_backs_up_real_dir "/media/user/USB1/tilesets"
      ⟨LocalEntry.realDir 7, none⟩ 7 rfl).2.1⟩

/-! ## Lemmas about dictionaries (configuration loaders) -/

theorem dictLookup_append (a b : Dict) (k : String) :
    dictLookup (a ++ b) k =
      match dictLookup a k with
      | some v => some v
      | none => dictLookup b k := by
  induction a with
  | nil => simp [dictLookup]
  | cons kv rest ih =>
    by_cases h : kv.1 = k
    · simp [dictLookup, h]
    · simpa [dictLookup, h] using ih

theorem dictLookup_append_of_isSome (a b : Dict) (k : String)
    (h : (dictLookup a k).isSome) :
    dictLookup (a ++ b) k = dictLookup a k := by
  rw [dictLookup_append]
  cases hv : dictLookup a k with
  | none => rw [hv] at h; simp at h
  | some v => rfl

/-- One step of the merge loop neither changes a key that is already present
nor touches a key different from the inserted one. -/
theorem mergeStep_lookup_isSome (c : Dict) (kv : String × JVal) (k : String)
    (h : (dictLookup c k).isSome) :
    dictLookup (if (dictLookup c kv.1).isSome then c else c ++ [kv]) k
      = dictLookup c k := by
  split
  · rfl
  · exact dictLookup_append_of_isSome c [kv] k h

theorem mergeStep_lookup_none_ne (c : Dict) (kv : String × JVal) (k : String)
    (h : dictLookup c k = none) (hne : kv.1 ≠ k) :
    dictLookup (if (dictLookup c kv.1).isSome then c else c ++ [kv]) k = none := by
  split
  · exact h
  · rw [dictLookup_append, h]
    simp [dictLookup, hne]

theorem mergeDefaults_preserves_isSome (ds : Dict) (c : Dict) (k : String)
    (h : (dictLookup c k).isSome) :
    dictLookup (mergeDefaults ds c) k = dictLookup c k := by
  induction ds generalizing c with
  | nil => rfl
  | cons kv rest ih =>
    unfold mergeDefaults
    simp only [List.foldl_cons]
    have hstep := mergeStep_lookup_isSome c kv k h
    rw [show (List.foldl (fun c kv =>
        if (dictLookup c kv.1).isSome then c else c ++ [kv]) _ rest)
      = mergeDefaults rest _ from rfl]
    rw [ih _ (by rw [hstep]; exact h), hstep]

theorem mergeDefaults_fills (ds : Dict) (c : Dict) (kv : String × JVal)
    (h : kv ∈ ds) :
    (dictLookup (mergeDefaults ds c) kv.1).isSome := by
  induction ds generalizing c with
  | nil => cases h
  | cons kv0 rest ih =>
    unfold mergeDefaults
    simp only [List.foldl_cons]
    rw [show (List.foldl (fun c kv =>
        if (dictLookup c kv.1).isSome then c else c ++ [kv]) _ rest)
      = mergeDefaults rest _ from rfl]
    rcases List.mem_cons.mp h with heq | hmem
    · subst heq
      have hsome : (dictLookup
          (if (dictLookup c kv.1).isSome then c else c ++ [kv]) kv.1).isSome := by
        split
        · assumption
        · rw [dictLookup_append]
          cases hv : dictLookup c kv.1 with
          | none => simp [dictLookup]
          | some v => rfl
      rw [mergeDefaults_preserves_isSome rest _ kv.1 hsome]
      exact hsome
    · exact ih _ hmem

theorem gridCompat_preserves_isSome (c : Dict) (k : String)
    (h : (dictLookup c k).isSome) :
    dictLookup (gridCompat c) k = dictLookup c k := by
  unfold gridCompat
  split
  · exact dictLookup_append_of_isSome c _ k h
  · rfl

/-- C9 counterexample: load_user_config (et-firstboot) returns a parseable
configuration file verbatim, so a file without a callsign key loads to a
configuration whose callsign is absent rather than the N0CALL sentinel,
contradicting the claim that every missing key is filled from the defaults. -/
theorem load_user_config_missing_callsign_cex :
    dictLookup (load_user_config (DiskState.parsed [("grid", JVal.str "FN35")]))
      "callsign" = none := by
  decide

theorem mergeStep_fills_value (c : Dict) (kv : String × JVal)
    (h : dictLookup c kv.1 = none) :
    dictLookup (if (dictLookup c kv.1).isSome then c else c ++ [kv]) kv.1
      = some kv.2 := by
  rw [if_neg (by simp [h])]
  rw [dictLookup_append, h]
  simp [dictLookup]

/-- When the loaded dict lacks key k and the defaults list carries v as the
first value for k, the merge loop ends with k bound to v. -/
theorem mergeDefaults_fills_value (ds : Dict) (c : Dict) (k : String) (v : JVal)
    (hc : dictLookup c k = none) (hds : dictLookup ds k = some v) :
    dictLookup (mergeDefaults ds c) k = some v := by
  induction ds generalizing c with
  | nil => simp [dictLookup] at hds
  | cons kv rest ih =>
    unfold mergeDefaults
    simp only [List.foldl_cons]
    rw [show (List.foldl (fun c kv =>
        if (dictLookup c kv.1).isSome then c else c ++ [kv]) _ rest)
      = mergeDefaults rest _ from rfl]
    by_cases hk : kv.1 = k
    · subst hk
      have hv : v = kv.2 := by
        rw [show dictLookup (kv :: rest) kv.1 = some kv.2 by simp [dictLookup]] at hds
        exact (Option.some_injective _ hds).symm
      subst hv
      have hfill := mergeStep_fills_value c kv hc
      rw [mergeDefaults_preserves_isSome rest _ kv.1 (by rw [hfill]; rfl), hfill]
    · have hrest : dictLookup rest k = some v := by
        rw [show dictLookup (kv :: rest) k = dictLookup rest k by
          simp [dictLookup, hk]] at hds
        exact hds
      exact ih _ (mergeStep_lookup_none_ne c kv k hc hk) hrest

theorem gridCompat_keeps_value (c : Dict) (k : String) (v : JVal)
    (h : dictLookup c k = some v) :
    dictLookup (gridCompat c) k = some v := by
  rw [gridCompat_preserves_isSome c k (by rw [h]; rfl)]
  exact h

/-- C9 amended: neither loader ever fails, but only the et-user applet's
load_config merges a parseable file with the defaults: every DEFAULT_CONFIG key
is present after loading and an absent callsign comes back as the N0CALL
sentinel.  The first-boot wizard's load_user_config substitutes its complete
default dict only when the file is missing or unreadable, and returns a
parseable file verbatim — keys missing there stay missing. -/
theorem config_loaders_amended :
    (∀ d : Dict, ∀ kv ∈ DEFAULT_CONFIG,
      (dictLookup (load_config (DiskState.parsed d)) kv.1).isSome) ∧
    (∀ d : Dict, dictLookup d "callsign" = none →
      dictLookup (load_config (DiskState.parsed d)) "callsign"
        = some (JVal.str "N0CALL")) ∧
    (load_user_config DiskState.missing = firstbootDefaults ∧
      load_user_config DiskState.unreadable = firstbootDefaults ∧
      ∀ d : Dict, load_user_config (DiskState.parsed d) = d) := by
  refine ⟨?_, ?_, rfl, rfl, fun d => rfl⟩
  · intro d kv hkv
    have h1 := mergeDefaults_fills DEFAULT_CONFIG d kv hkv
    show (dictLookup (gridCompat (mergeDefaults DEFAULT_CONFIG d)) kv.1).isSome
    rw [gridCompat_preserves_isSome _ _ h1]
    exact h1
  · intro d hd
    show dictLookup (gridCompat (mergeDefaults DEFAULT_CONFIG d)) "callsign"
      = some (JVal.str "N0CALL")
    exact gridCompat_keeps_value _ _ _
      (mergeDefaults_fills_value DEFAULT_CONFIG d "callsign" (JVal.str "N0CALL")
        hd (by decide))

theorem config_loaders_amended_witness :
    dictLookup (load_config (DiskState.parsed [("grid", JVal.str "FN35")]))
      "callsign" = some (JVal.str "N0CALL") :=
  config_loaders_amended.2.1 [("grid", JVal.str "FN35")] rfl

/-! ## Lemmas about the region-catalog pipeline -/

theorem dedupById_sublist (l : List Region) :
    ∀ seen, List.Sublist (dedupById l seen) l := by
  induction l with
  | nil => intro seen; simp [dedupById]
  | cons r0 rs ih =>
    intro seen
    unfold dedupById
    split
    · exact (ih seen).cons r0
    · exact (ih (r0.id :: seen)).cons₂ r0

theorem dedupById_id_not_seen (l : List Region) :
    ∀ seen r, r ∈ dedupById l seen → r.id ∉ seen := by
  induction l with
  | nil => intro seen r h; simp [dedupById] at h
  | cons r0 rs ih =>
    intro seen r h
    unfold dedupById at h
    split at h
    · exact ih seen r h
    · rcases List.mem_cons.mp h with rfl | h2
      · assumption
      · have h3 := ih (r0.id :: seen) r h2
        exact fun hs => h3 (List.mem_cons_of_mem _ hs)

theorem dedupById_ids_nodup (l : List Region) :
    ∀ seen, ((dedupById l seen).map Region.id).Nodup := by
  induction l with
  | nil => intro seen; simp [dedupById]
  | cons r0 rs ih =>
    intro seen
    unfold dedupById
    split
    · exact ih seen
    · simp only [List.map_cons, List.nodup_cons]
      refine ⟨?_, ih _⟩
      intro hmem
      rcases List.mem_map.mp hmem with ⟨r, hr, hid⟩
      exact dedupById_id_not_seen rs (r0.id :: seen) r hr
        (by rw [hid]; exact List.mem_cons_self _ _)

/-- C6: for a successfully fetched listing, the region catalog contains only
entries derived from hrefs that are not the whole-country aggregate file, its
derived ids are pairwise distinct, and it is sorted by display name. -/
theorem api_osm_regions_catalog_props (country : String) (hrefs : List String) :
    (∀ r ∈ (api_osm_regions country (Except.ok hrefs)).regions,
      ∃ m, m ∈ hrefs ∧ strContains m (osmBase country ++ "-latest") = false ∧
        r = deriveRegion m) ∧
    ((api_osm_regions country (Except.ok hrefs)).regions.map Region.id).Nodup ∧
    (api_osm_regions country (Except.ok hrefs)).regions.Sorted regionLe := by
  have hr : (api_osm_regions country (Except.ok hrefs)).regions
      = osmRegionList (osmBase country) hrefs := rfl
  rw [hr]
  unfold osmRegionList
  refine ⟨?_, dedupById_ids_nodup _ _, ?_⟩
  · intro r hmem
    have h1 : r ∈ List.insertionSort regionLe
        ((hrefs.filter fun m =>
          ¬ strContains m (osmBase country ++ "-latest")).map deriveRegion) :=
      (dedupById_sublist _ _).subset hmem
    have h2 : r ∈ (hrefs.filter fun m =>
        ¬ strContains m (osmBase country ++ "-latest")).map deriveRegion :=
      (List.mem_insertionSort regionLe).mp h1
    rcases List.mem_map.mp h2 with ⟨m, hmf, hder⟩
    have h3 := List.mem_filter.mp hmf
    refine ⟨m, h3.1, ?_, hder.symm⟩
    have h4 := h3.2
    simp only [decide_eq_true_eq, Bool.not_eq_true] at h4
    exact h4
  · exact List.Pairwise.sublist (dedupById_sublist _ _)
      (List.sorted_insertionSort regionLe _)

theorem api_osm_regions_catalog_props_witness :
    (∀ r ∈ (api_osm_regions "canada" (Except.ok
        ["/north-america/canada/quebec-latest.osm.pbf",
         "canada-latest.osm.pbf",
         "/north-america/canada/alberta-latest.osm.pbf",
         "/north-america/canada/quebec-latest.osm.pbf"])).regions,
      ∃ m, m ∈ ["/north-america/canada/quebec-latest.osm.pbf",
         "canada-latest.osm.pbf",
         "/north-america/canada/alberta-latest.osm.pbf",
         "/north-america/canada/quebec-latest.osm.pbf"] ∧
        strContains m (osmBase "canada" ++ "-latest") = false ∧ r = deriveRegion m) ∧
    ((api_osm_regions "canada" (Except.ok
        ["/north-america/canada/quebec-latest.osm.pbf",
         "canada-latest.osm.pbf",
         "/north-america/canada/alberta-latest.osm.pbf",
         "/north-america/canada/quebec-latest.osm.pbf"])).regions.map Region.id).Nodup :=
  ⟨(api_osm_regions_catalog_props "canada" _).1,
   (api_osm_regions_catalog_props "canada" _).2.1⟩

/-! ## Lemmas about the wikipedia finalizer -/

theorem dirLookup_cons_eq (me : String × WikiEntryNode) (rest : WikiDir)
    (n : String) (h : me.1 = n) : dirLookup (me :: rest) n = some me.2 := by
  cases me
  simp only [dirLookup]
  rw [if_pos h]

theorem dirLookup_cons_ne (me : String × WikiEntryNode) (rest : WikiDir)
    (n : String) (h : me.1 ≠ n) : dirLookup (me :: rest) n = dirLookup rest n := by
  cases me
  simp only [dirLookup]
  rw [if_neg h]

theorem wdirLookup_append (a b : WikiDir) (n : String) :
    dirLookup (a ++ b) n =
      match dirLookup a n with
      | some e => some e
      | none => dirLookup b n := by
  induction a with
  | nil => simp [dirLookup]
  | cons me rest ih =>
    by_cases h : me.1 = n
    · rw [List.cons_append, dirLookup_cons_eq me _ n h, dirLookup_cons_eq me rest n h]
    · rw [List.cons_append, dirLookup_cons_ne me _ n h, dirLookup_cons_ne me rest n h]
      exact ih

theorem dirErase_cons (me : String × WikiEntryNode) (rest : WikiDir) (n : String) :
    dirErase (me :: rest) n =
      if me.1 = n then dirErase rest n else me :: dirErase rest n := by
  simp only [dirErase, List.filter_cons]
  by_cases h : me.1 = n <;> simp [h]

theorem dirErase_self (d : WikiDir) (n : String) :
    dirLookup (dirErase d n) n = none := by
  induction d with
  | nil => rfl
  | cons me rest ih =>
    rw [dirErase_cons]
    by_cases h : me.1 = n
    · rw [if_pos h]; exact ih
    · rw [if_neg h, dirLookup_cons_ne me _ n h]; exact ih

theorem dirErase_ne (d : WikiDir) (n m : String) (h : m ≠ n) :
    dirLookup (dirErase d n) m = dirLookup d m := by
  induction d with
  | nil => rfl
  | cons me rest ih =>
    rw [dirErase_cons]
    by_cases hm : me.1 = n
    · rw [if_pos hm, dirLookup_cons_ne me rest m (fun hc => h (hc ▸ hm ▸ rfl))]
      exact ih
    · rw [if_neg hm]
      by_cases hn : me.1 = m
      · rw [dirLookup_cons_eq me _ m hn, dirLookup_cons_eq me rest m hn]
      · rw [dirLookup_cons_ne me _ m hn, dirLookup_cons_ne me rest m hn]
        exact ih

theorem cleanup_cons (me : String × WikiEntryNode) (rest : WikiDir) :
    cleanupBrokenLinks (me :: rest) =
      if isBrokenW me.2 then cleanupBrokenLinks rest
      else me :: cleanupBrokenLinks rest := by
  simp only [cleanupBrokenLinks, List.filter_cons]
  cases h : isBrokenW me.2 <;> simp [h]

theorem cleanup_keeps_entry (d : WikiDir) (n : String) (e : WikiEntryNode)
    (he : isBrokenW e = false) (h : dirLookup d n = some e) :
    dirLookup (cleanupBrokenLinks d) n = some e := by
  induction d with
  | nil => simp [dirLookup] at h
  | cons me rest ih =>
    rw [cleanup_cons]
    by_cases hm : me.1 = n
    · rw [dirLookup_cons_eq me rest n hm] at h
      have he2 : me.2 = e := Option.some_injective _ h
      rw [if_neg (by rw [he2, he]; exact Bool.false_ne_true)]
      rw [dirLookup_cons_eq me _ n hm, he2]
    · rw [dirLookup_cons_ne me rest n hm] at h
      split
      · exact ih h
      · rw [dirLookup_cons_ne me _ n hm]
        exact ih h

theorem cleanup_removes_only_broken (d : WikiDir) (n : String) (e : WikiEntryNode)
    (h : dirLookup d n = some e) (h2 : dirLookup (cleanupBrokenLinks d) n = none) :
    e = WikiEntryNode.brokenLink := by
  by_contra hne
  have hk : isBrokenW e = false := by
    cases e
    · rfl
    · rfl
    · exact absurd rfl hne
  rw [cleanup_keeps_entry d n e hk h] at h2
  cases h2

theorem cleanup_no_broken (d : WikiDir) (n : String) :
    dirLookup (cleanupBrokenLinks d) n ≠ some WikiEntryNode.brokenLink := by
  induction d with
  | nil => simp [cleanupBrokenLinks, dirLookup]
  | cons me rest ih =>
    rw [cleanup_cons]
    split
    · exact ih
    · by_cases hm : me.1 = n
      · rw [dirLookup_cons_eq me _ n hm]
        intro hc
        have hbr : me.2 = WikiEntryNode.brokenLink := Option.some_injective _ hc
        simp_all [isBrokenW]
      · rw [dirLookup_cons_ne me _ n hm]
        exact ih

theorem wdirLookup_eq_none_of_not_mem (d : WikiDir) (n : String)
    (h : n ∉ d.map Prod.fst) : dirLookup d n = none := by
  induction d with
  | nil => rfl
  | cons me rest ih =>
    simp only [List.map_cons, List.mem_cons] at h
    push_neg at h
    rw [dirLookup_cons_ne me rest n (fun hc => h.1 hc.symm)]
    exact ih h.2

theorem cleanup_lookup_none_of_none (d : WikiDir) (n : String)
    (h : dirLookup d n = none) : dirLookup (cleanupBrokenLinks d) n = none := by
  induction d with
  | nil => rfl
  | cons me rest ih =>
    by_cases hm : me.1 = n
    · rw [dirLookup_cons_eq me rest n hm] at h
      cases h
    · rw [dirLookup_cons_ne me rest n hm] at h
      rw [cleanup_cons]
      split
      · exact ih h
      · rw [dirLookup_cons_ne me _ n hm]
        exact ih h

/-- With unique names in the directory, cleanup either keeps a name's entry
unchanged or removes the name entirely. -/
theorem cleanup_lookup_of_nodup (d : WikiDir) (hnd : (d.map Prod.fst).Nodup)
    (n : String) :
    dirLookup (cleanupBrokenLinks d) n = dirLookup d n ∨
      dirLookup (cleanupBrokenLinks d) n = none := by
  induction d with
  | nil => exact Or.inl rfl
  | cons me rest ih =>
    simp only [List.map_cons, List.nodup_cons] at hnd
    by_cases hm : me.1 = n
    · cases hb : isBrokenW me.2 with
      | false =>
        left
        rw [cleanup_keeps_entry (me :: rest) n me.2 hb (dirLookup_cons_eq me rest n hm)]
        rw [dirLookup_cons_eq me rest n hm]
      | true =>
        right
        have hrest : dirLookup rest n = none :=
          wdirLookup_eq_none_of_not_mem rest n (hm ▸ hnd.1)
        rw [cleanup_cons, if_pos hb]
        exact cleanup_lookup_none_of_none rest n hrest
    · rw [dirLookup_cons_ne me rest n hm, cleanup_cons]
      split
      · exact ih hnd.2
      · rw [dirLookup_cons_ne me _ n hm]
        exact ih hnd.2

/-- Case analysis of one linking iteration: a real file leaves the directory
unchanged; any symlink of the same name (working or broken) is unlinked and
recreated pointing into the USB wikipedia directory; an absent name gets the
new symlink appended. -/
theorem linkOneZim_eq (u : String) (d : WikiDir) (z : String) :
    linkOneZim u d z =
      match dirLookup d z with
      | some (WikiEntryNode.realFile _) => d
      | some (WikiEntryNode.goodLink _) =>
          dirErase d z ++ [(z, WikiEntryNode.goodLink (u ++ "/" ++ z))]
      | some WikiEntryNode.brokenLink =>
          dirErase d z ++ [(z, WikiEntryNode.goodLink (u ++ "/" ++ z))]
      | none => d ++ [(z, WikiEntryNode.goodLink (u ++ "/" ++ z))] := by
  unfold linkOneZim
  cases hz : dirLookup d z with
  | none => simp [hz]
  | some e =>
    cases e with
    | realFile c => simp [hz, isLinkW, wExists]
    | goodLink t => simp [hz, isLinkW, dirErase_self]
    | brokenLink => simp [hz, isLinkW, dirErase_self]

theorem linkOneZim_lookup_ne (u : String) (d : WikiDir) (z m : String)
    (h : m ≠ z) : dirLookup (linkOneZim u d z) m = dirLookup d m := by
  rw [linkOneZim_eq]
  cases hz : dirLookup d z with
  | none =>
    rw [wdirLookup_append]
    cases hm : dirLookup d m with
    | none =>
      exact dirLookup_cons_ne (z, WikiEntryNode.goodLink (u ++ "/" ++ z)) [] m
        (fun hc => h hc.symm)
    | some e => rfl
  | some e =>
    cases e with
    | realFile c => rfl
    | goodLink t =>
      rw [wdirLookup_append, dirErase_ne d z m h]
      cases hm : dirLookup d m with
      | none =>
        exact dirLookup_cons_ne (z, WikiEntryNode.goodLink (u ++ "/" ++ z)) [] m
          (fun hc => h hc.symm)
      | some e2 => rfl
    | brokenLink =>
      rw [wdirLookup_append, dirErase_ne d z m h]
      cases hm : dirLookup d m with
      | none =>
        exact dirLookup_cons_ne (z, WikiEntryNode.goodLink (u ++ "/" ++ z)) [] m
          (fun hc => h hc.symm)
      | some e2 => rfl

theorem linkOneZim_keeps_realFile (u : String) (d : WikiDir) (z n : String)
    (c : Nat) (h : dirLookup d n = some (WikiEntryNode.realFile c)) :
    dirLookup (linkOneZim u d z) n = some (WikiEntryNode.realFile c) := by
  by_cases hnz : n = z
  · subst hnz
    rw [linkOneZim_eq, h]
    exact h
  · rw [linkOneZim_lookup_ne u d z n hnz]
    exact h

theorem linkOneZim_creates (u : String) (d : WikiDir) (z : String)
    (hnb : dirLookup d z ≠ some WikiEntryNode.brokenLink)
    (hnf : ∀ c, dirLookup d z ≠ some (WikiEntryNode.realFile c)) :
    dirLookup (linkOneZim u d z) z
      = some (WikiEntryNode.goodLink (u ++ "/" ++ z)) := by
  rw [linkOneZim_eq]
  cases hz : dirLookup d z with
  | none =>
    rw [wdirLookup_append, hz]
    exact dirLookup_cons_eq (z, _) [] z rfl
  | some e =>
    cases e with
    | realFile c => exact absurd hz (hnf c)
    | goodLink t =>
      rw [wdirLookup_append, dirErase_self]
      exact dirLookup_cons_eq (z, _) [] z rfl
    | brokenLink => exact absurd hz hnb

theorem linkOneZim_keeps_goodlink (u : String) (d : WikiDir) (z z2 : String)
    (h : dirLookup d z2 = some (WikiEntryNode.goodLink (u ++ "/" ++ z2))) :
    dirLookup (linkOneZim u d z) z2
      = some (WikiEntryNode.goodLink (u ++ "/" ++ z2)) := by
  by_cases hz : z2 = z
  · subst hz
    rw [linkOneZim_eq, h, wdirLookup_append, dirErase_self]
    exact dirLookup_cons_eq (z2, _) [] z2 rfl
  · rw [linkOneZim_lookup_ne u d z z2 hz]
    exact h

theorem linkOneZim_no_broken (u : String) (d : WikiDir) (z : String)
    (hd : ∀ n, dirLookup d n ≠ some WikiEntryNode.brokenLink) :
    ∀ n, dirLookup (linkOneZim u d z) n ≠ some WikiEntryNode.brokenLink := by
  intro n
  by_cases hnz : n = z
  · subst hnz
    rw [linkOneZim_eq]
    cases hz : dirLookup d n with
    | none =>
      rw [wdirLookup_append, hz, dirLookup_cons_eq (n, _) [] n rfl]
      intro hc
      cases Option.some_injective _ hc
    | some e =>
      cases e with
      | realFile c =>
        rw [hz]
        intro hc
        cases Option.some_injective _ hc
      | goodLink t =>
        rw [wdirLookup_append, dirErase_self, dirLookup_cons_eq (n, _) [] n rfl]
        intro hc
        cases Option.some_injective _ hc
      | brokenLink => exact absurd hz (hd n)
  · rw [linkOneZim_lookup_ne u d z n hnz]
    exact hd n

theorem wikiLinkPhase_keeps_realFile (u : String) :
    ∀ (zs : List String) (d : WikiDir) (n : String) (c : Nat),
      dirLookup d n = some (WikiEntryNode.realFile c) →
      dirLookup (wikiLinkPhase u zs d) n = some (WikiEntryNode.realFile c) := by
  intro zs
  induction zs with
  | nil => intro d n c h; exact h
  | cons z rest ih =>
    intro d n c h
    exact ih (linkOneZim u d z) n c (linkOneZim_keeps_realFile u d z n c h)

theorem wikiLinkPhase_keeps_goodlink (u : String) :
    ∀ (zs : List String) (d : WikiDir) (z2 : String),
      dirLookup d z2 = some (WikiEntryNode.goodLink (u ++ "/" ++ z2)) →
      dirLookup (wikiLinkPhase u zs d) z2
        = some (WikiEntryNode.goodLink (u ++ "/" ++ z2)) := by
  intro zs
  induction zs with
  | nil => intro d z2 h; exact h
  | cons z rest ih =>
    intro d z2 h
    exact ih (linkOneZim u d z) z2 (linkOneZim_keeps_goodlink u d z z2 h)

theorem wikiLinkPhase_creates (u : String) :
    ∀ (zs : List String) (d : WikiDir) (z : String),
      (∀ n, dirLookup d n ≠ some WikiEntryNode.brokenLink) →
      z ∈ zs →
      (∀ c, dirLookup d z ≠ some (WikiEntryNode.realFile c)) →
      dirLookup (wikiLinkPhase u zs d) z
        = some (WikiEntryNode.goodLink (u ++ "/" ++ z)) := by
  intro zs
  induction zs with
  | nil => intro d z _ hmem; cases hmem
  | cons z0 rest ih =>
    intro d z hnb hmem hnf
    by_cases hz : z0 = z
    · subst hz
      exact wikiLinkPhase_keeps_goodlink u rest _ z0
        (linkOneZim_creates u d z0 (hnb z0) hnf)
    · have hmem2 : z ∈ rest := by
        rcases List.mem_cons.mp hmem with rfl | h2
        · exact absurd rfl hz
        · exact h2
      refine ih (linkOneZim u d z0) z (linkOneZim_no_broken u d z0 hnb) hmem2 ?_
      intro c
      rw [linkOneZim_lookup_ne u d z0 z (fun hc => hz hc.symm)]
      exact hnf c

/-- C8: the archive-file pass of the finalizer preserves every real local file,
its cleanup phase only ever removes broken symlinks, and every .zim found on the
removable volume whose name is not taken by a real local file ends up as a
symlink into the USB wikipedia directory. -/
theorem create_symlinks_wiki_preserves_real_files (u : String) (zs : List String)
    (d : WikiDir) (hnd : (d.map Prod.fst).Nodup) :
    (∀ n c, dirLookup d n = some (WikiEntryNode.realFile c) →
      dirLookup (wikiFinalize u zs d) n = some (WikiEntryNode.realFile c)) ∧
    (∀ n e, dirLookup d n = some e → dirLookup (cleanupBrokenLinks d) n = none →
      e = WikiEntryNode.brokenLink) ∧
    (∀ z ∈ zs, (∀ c, dirLookup d z ≠ some (WikiEntryNode.realFile c)) →
      dirLookup (wikiFinalize u zs d) z
        = some (WikiEntryNode.goodLink (u ++ "/" ++ z))) := by
  refine ⟨?_, ?_, ?_⟩
  · intro n c h
    exact wikiLinkPhase_keeps_realFile u zs (cleanupBrokenLinks d) n c
      (cleanup_keeps_entry d n (WikiEntryNode.realFile c) rfl h)
  · intro n e h h2
    exact cleanup_removes_only_broken d n e h h2
  · intro z hmem hnf
    refine wikiLinkPhase_creates u zs (cleanupBrokenLinks d) z
      (fun n => cleanup_no_broken d n) hmem ?_
    intro c
    rcases cleanup_lookup_of_nodup d hnd z with hsame | hnone
    · rw [hsame]
      exact hnf c
    · rw [hnone]
      intro hc
      cases hc

theorem create_symlinks_wiki_preserves_real_files_witness :
    dirLookup (wikiFinalize "/media/user/USB1/wikipedia"
        ["wikipedia_en_a.zim", "wikipedia_fr_b.zim"]
        [("preseed.zim", WikiEntryNode.realFile 3), ("old.zim", WikiEntryNode.brokenLink)])
      "preseed.zim" = some (WikiEntryNode.realFile 3) ∧
    dirLookup (wikiFinalize "/media/user/USB1/wikipedia"
        ["wikipedia_en_a.zim", "wikipedia_fr_b.zim"]
        [("preseed.zim", WikiEntryNode.realFile 3), ("old.zim", WikiEntryNode.brokenLink)])
      "wikipedia_en_a.zim"
      = some (WikiEntryNode.goodLink "/media/user/USB1/wikipedia/wikipedia_en_a.zim") := by
  have h := create_symlinks_wiki_preserves_real_files "/media/user/USB1/wikipedia"
    ["wikipedia_en_a.zim", "wikipedia_fr_b.zim"]
    [("preseed.zim", WikiEntryNode.realFile 3), ("old.zim", WikiEntryNode.brokenLink)]
    (by decide)
  refine ⟨h.1 "preseed.zim" 3 (by decide), ?_⟩
  have h3 := h.2.2 "wikipedia_en_a.zim" (by decide) ?_
  · exact h3
  · intro c hc
    have hz : dirLookup
        [("preseed.zim", WikiEntryNode.realFile 3), ("old.zim", WikiEntryNode.brokenLink)]
        "wikipedia_en_a.zim" = none := by decide
    rw [hz] at hc
    cases hc
